import Mathlib

/-!
Verification of the activity identity, registration and invocation-binding
subsystem of `sfini` (`src/sfini/_activity.py`), via a shallow embedding.

Task-input payloads and bound-argument mappings are modelled as association
lists from `String` keys to `Int` values with Python-dict semantics
(first-match lookup, in-place overwrite on assignment, append for fresh keys).
A callable signature (`inspect.Signature`) is modelled as the list of its
parameters in declaration order; each parameter carries its name, its default
(`none` standing for the `Parameter.empty` sentinel) and whether its kind is
`VAR_KEYWORD` (the only use the source makes of the kind). Exceptions are
modelled with `Except`.
-/

namespace Sfini

/-- Python-dict payload: association list with first-match lookup. -/
abbrev Dict := List (String × Int)

/-- Lookup as in `d.get(key, default-absent)`: first matching key, else `none`. -/
def Dict.get? : Dict → String → Option Int
  | [], _ => none
  | (k, v) :: rest, key => if k = key then some v else Dict.get? rest key

/-- Assignment `d[key] = val`: overwrite the first matching entry in place,
else append the new entry at the end (Python dict insertion order). -/
def Dict.set : Dict → String → Int → Dict
  | [], key, val => [(key, val)]
  | (k, v) :: rest, key, val =>
    if k = key then (key, val) :: rest else (k, v) :: Dict.set rest key val

/-- Python `d.update(src)`: assign every entry of `src` into `d` in order. -/
def Dict.update (d : Dict) (src : Dict) : Dict :=
  src.foldl (fun acc kv => Dict.set acc kv.1 kv.2) d

/-- The list of keys of a payload, in order. -/
def Dict.keys (d : Dict) : List String := d.map (fun kv => kv.1)

/-- One parameter of a captured callable signature (`inspect.Parameter`):
its name, its default value (`none` models the `Parameter.empty` sentinel,
which is also the default of a `VAR_KEYWORD` parameter), and whether its
kind is `VAR_KEYWORD` (a catch-all `**kwargs` parameter). -/
structure Param where
  name : String
  default : Option Int
  isVarKeyword : Bool
deriving DecidableEq

/-- The parameter loop of `CallableActivity._get_input_from`: for each
parameter of the signature in order, `val = task_input.get(name, default)`;
if `val` is the empty sentinel, raise `KeyError` (modelled as an error value
carrying the missing parameter name); else `kwargs[name] = val`. -/
def bindParams (taskInput : Dict) : List Param → Dict → Except String Dict
  | [], kwargs => .ok kwargs
  | p :: ps, kwargs =>
    match (Dict.get? taskInput p.name).orElse (fun _ => p.default) with
    | none => .error p.name
    | some val => bindParams taskInput ps (Dict.set kwargs p.name val)

/-- `CallableActivity._get_input_from(task_input)`: run the parameter loop
starting from an empty `kwargs`, then, if any parameter of the signature has
kind `VAR_KEYWORD`, `kwargs.update(task_input)`. -/
def getInputFrom (sig : List Param) (taskInput : Dict) : Except String Dict :=
  match bindParams taskInput sig [] with
  | .error e => .error e
  | .ok kwargs =>
    if sig.any (fun p => p.isVarKeyword) then .ok (Dict.update kwargs taskInput)
    else .ok kwargs

/-- `CallableActivity.call_with(task_input)`: compute the bound arguments with
`_get_input_from`, then call `self.fn(**kwargs)`; a binding error propagates
and the callable is never invoked. -/
def callWith (sig : List Param) (fn : Dict → Int) (taskInput : Dict) :
    Except String Int :=
  match getInputFrom sig taskInput with
  | .error e => .error e
  | .ok kwargs => .ok (fn kwargs)

/-- The session fields used by `Activity.arn`: `session.region` and
`session.account_id`. -/
structure Session where
  region : String
  accountId : String
deriving DecidableEq

/-- `Activity` state: `name`, `heartbeat`, and the cache slot that
`_util.cached_property` fills on first access of `arn`. -/
structure Activity where
  name : String
  heartbeat : Nat
  arnCache : Option String := none
deriving DecidableEq

/-- Body of the `Activity.arn` property:
`"arn:aws:states:%s:%s:activity:%s" % (region, account, name)`. -/
def computeArn (sess : Session) (name : String) : String :=
  "arn:aws:states:" ++ sess.region ++ ":" ++ sess.accountId ++ ":activity:" ++ name

/-- Modelled from the spec: `_util.cached_property` (the `_util` module is not
under `src/`) computes the property body on first access, stores the value on
the instance, and returns the stored value on every later access. The property
body itself is `Activity.arn` from the source (`computeArn`). Returns the
value together with the (possibly updated) activity state. -/
def getArn (sess : Session) (act : Activity) : String × Activity :=
  match act.arnCache with
  | some arn => (arn, act)
  | none =>
    let arn := computeArn sess act.name
    (arn, { act with arnCache := some arn })

/-- Response of `session.sfn.create_activity`: the fields the source reads. -/
structure CreateActivityResp where
  activityArn : String
  creationDate : Nat
deriving DecidableEq

/-- Errors of `Activity.register`: `_util.assert_valid_name` failure (the
`InvalidNameError` of the spec) and the `assert resp["activityArn"] == self.arn`
failure (the `IdentityMismatchError` of the spec). -/
inductive RegisterError where
  | invalidName
  | identityMismatch
deriving DecidableEq

/-- `Activity.register()`: first `_util.assert_valid_name(self.name)`
(`_util` is not under `src/`, so the validity test is an abstract predicate
`validName`, modelled from the spec as failing with `InvalidNameError` on an
invalid name); then one call `session.sfn.create_activity(name=self.name)`
(the remote service is the oracle `createActivity`, and the second component
of the result records the names passed to create calls, in order); then
`assert resp["activityArn"] == self.arn`, reading `self.arn` through the
cache. Returns (outcome, activity state after, create-call log). -/
def registerActivity (validName : String → Bool)
    (createActivity : String → CreateActivityResp)
    (sess : Session) (act : Activity) :
    Except RegisterError Unit × Activity × List String :=
  if validName act.name = false then (.error .invalidName, act, [])
  else
    let resp := createActivity act.name
    let arn := (getArn sess act).1
    let actAfter := (getArn sess act).2
    if resp.activityArn ≠ arn then (.error .identityMismatch, actAfter, [act.name])
    else (.ok (), actAfter, [act.name])

/-- `ActivityRegistration` state: group `name`, group `version`, and the
`activities` mapping from short name to activity (a Python dict, modelled as
an association list in insertion order). -/
structure ActivityRegistration where
  name : String
  version : String
  activities : List (String × Activity)
deriving DecidableEq

/-- `ActivityRegistration.activity(name, heartbeat)` applied to a function
named `fnName`: raise `ValueError` if the group name contains `!`; compute
`pref = "%s!%s!" % (self.name, self.version)`; take `suff` as the given name,
else the function name; raise `ValueError` if `suff in self.activities`; else
store the new activity under `suff` and return it. The registration state is
returned alongside so that a raise leaves it unchanged. -/
def declareActivity (reg : ActivityRegistration) (name : Option String)
    (heartbeat : Nat) (fnName : String) :
    Except String Activity × ActivityRegistration :=
  if reg.name.data.contains '!' then
    (.error "Activities group name cannot contain !", reg)
  else
    let pref := reg.name ++ "!" ++ reg.version ++ "!"
    let suff := match name with | none => fnName | some n => n
    if (reg.activities.map (fun kv => kv.1)).contains suff then
      (.error ("Activity " ++ suff ++ " already registered"), reg)
    else
      let act : Activity := { name := pref ++ suff, heartbeat := heartbeat }
      (.ok act, { reg with activities := reg.activities ++ [(suff, act)] })

/-- `ActivityRegistration.new_external_activity(name, heartbeat)`: raise
`ValueError` if the group name contains `!`; else build and return a bare
`Activity` named `pref + name`. The registration state is returned alongside;
the source does not touch `self.activities` here. -/
def newExternalActivity (reg : ActivityRegistration) (name : String)
    (heartbeat : Nat) : Except String Activity × ActivityRegistration :=
  if reg.name.data.contains '!' then
    (.error "Activities group name cannot contain !", reg)
  else
    let pref := reg.name ++ "!" ++ reg.version ++ "!"
    (.ok { name := pref ++ name, heartbeat := heartbeat }, reg)

/-- `ActivityRegistration.register()`: `activity.register()` for each stored
activity in order; this lists the names of the activities registered. -/
def registerAllNames (reg : ActivityRegistration) : List String :=
  reg.activities.map (fun kv => kv.2.name)

/-- Python `s.split(sep, maxsplit)` on a list of characters, accumulating the
current chunk: at most `maxsplit` splits are performed, after which the rest
of the string (separators included) becomes the final chunk. -/
def pySplitAux (sep : Char) : List Char → Nat → List Char → List (List Char)
  | [], _, acc => [acc.reverse]
  | c :: l, 0, acc => [acc.reverse ++ (c :: l)]
  | c :: l, Nat.succ m, acc =>
    if c = sep then acc.reverse :: pySplitAux sep l m []
    else pySplitAux sep l (m + 1) (c :: acc)

/-- Python `s.split(sep, maxsplit)` for a one-character separator. -/
def pySplit (s : String) (sep : Char) (maxsplit : Nat) : List String :=
  (pySplitAux sep s.data maxsplit []).map String.mk

/-- Composite remote name minted by the group:
`pref + suff` with `pref = "%s!%s!" % (group, version)`. -/
def compositeName (group version short : String) : String :=
  (group ++ "!" ++ version ++ "!") ++ short

/-- `ActivityRegistration._get_name_and_version(activity_item_name)`:
`name_splits = activity_item_name.split("!", 3)`; return `None` when fewer
than 3 parts; then the tuple unpacking
`group_name, version, activity_name = name_splits` raises `ValueError` when
there are more than 3 parts (modelled as `.error ()`); return `None` when the
parsed group differs from `self.name`, else the (version, name) pair. -/
def getNameAndVersion (reg : ActivityRegistration) (activityItemName : String) :
    Except Unit (Option (String × String)) :=
  let nameSplits := pySplit activityItemName '!' 3
  if nameSplits.length < 3 then .ok none
  else
    match nameSplits with
    | [groupName, version, activityName] =>
      if groupName ≠ reg.name then .ok none
      else .ok (some (version, activityName))
    | _ => .error ()

/-- One entry of the collected `list_activities` response: the fields the
source reads (`name`, `arn`, `creationDate`). -/
structure RemoteActivity where
  name : String
  arn : String
  creationDate : Nat
deriving DecidableEq

/-- A tuple `(version, name, arn, creationDate)` as accumulated by
`ActivityRegistration._list_activities`. -/
abbrev ActItem := String × String × String × Nat

/-- The accumulation loop of `_list_activities`: skip entries whose parse is
`None`, append a tuple for each parsed entry, propagate a raised
`ValueError`. -/
def listActivitiesAux (reg : ActivityRegistration) :
    List RemoteActivity → List ActItem → Except Unit (List ActItem)
  | [], acts => .ok acts
  | act :: rest, acts =>
    match getNameAndVersion reg act.name with
    | .error e => .error e
    | .ok none => listActivitiesAux reg rest acts
    | .ok (some (version, name)) =>
      listActivitiesAux reg rest (acts ++ [(version, name, act.arn, act.creationDate)])

/-- `ActivityRegistration._list_activities()`, applied to the already-merged
paginated response (`_util.collect_paginated` is out of scope; the remote
list is the parameter). -/
def listActivities (reg : ActivityRegistration) (remote : List RemoteActivity) :
    Except Unit (List ActItem) :=
  listActivitiesAux reg remote []

/-- `ActivityRegistration._filter_versions(activity_items, version)`: keep an
item when `version is None and act[0] != self.version`, or when
`version is not None and act[0] == version`. -/
def filterVersions (reg : ActivityRegistration) (activityItems : List ActItem)
    (version : Option String) : List ActItem :=
  match activityItems with
  | [] => []
  | act :: rest =>
    let tail := filterVersions reg rest version
    match version with
    | none => if act.1 ≠ reg.version then act :: tail else tail
    | some v => if act.1 = v then act :: tail else tail

/-- When the key is absent, assignment appends the entry at the end. -/
lemma Dict.set_of_not_mem (d : Dict) (k : String) (v : Int)
    (h : k ∉ Dict.keys d) : Dict.set d k v = d ++ [(k, v)] := by
  induction d with
  | nil => rfl
  | cons kv rest ih =>
    obtain ⟨k0, v0⟩ := kv
    rw [show Dict.keys ((k0, v0) :: rest) = k0 :: Dict.keys rest from rfl,
        List.mem_cons] at h
    push_neg at h
    have hne : ¬ k0 = k := fun e => h.1 e.symm
    simp [Dict.set, hne, ih h.2]

/-- Keys of an appended payload. -/
lemma Dict.keys_append (d e : Dict) :
    Dict.keys (d ++ e) = Dict.keys d ++ Dict.keys e := by
  simp [Dict.keys]

/-- When the parameter loop succeeds, the keys of the produced mapping are the
keys of the accumulator followed by the parameter names in order, provided the
parameter names are distinct and fresh for the accumulator. -/
lemma bindParams_keys (ti : Dict) (ps : List Param) :
    ∀ (acc kw : Dict),
      (∀ p ∈ ps, p.name ∉ Dict.keys acc) →
      (ps.map Param.name).Nodup →
      bindParams ti ps acc = .ok kw →
      Dict.keys kw = Dict.keys acc ++ ps.map Param.name := by
  induction ps with
  | nil =>
    intro acc kw _ _ h
    simp [bindParams] at h
    simp [h]
  | cons p ps ih =>
    intro acc kw hdisj hnd h
    rw [bindParams] at h
    cases hv : (Dict.get? ti p.name).orElse (fun _ => p.default) with
    | none => rw [hv] at h; cases h
    | some v =>
      rw [hv] at h
      have hpacc : p.name ∉ Dict.keys acc := hdisj p (List.mem_cons_self p ps)
      have hset := Dict.set_of_not_mem acc p.name v hpacc
      have hhead : p.name ∉ ps.map Param.name := (List.nodup_cons.mp hnd).1
      have hdisj2 : ∀ q ∈ ps, q.name ∉ Dict.keys (Dict.set acc p.name v) := by
        intro q hq
        rw [hset, Dict.keys_append,
            show Dict.keys [(p.name, v)] = [p.name] from rfl, List.mem_append,
            List.mem_singleton]
        push_neg
        refine ⟨hdisj q (List.mem_cons_of_mem p hq), ?_⟩
        intro e
        exact hhead (e ▸ List.mem_map_of_mem Param.name hq)
      have hkw := ih (Dict.set acc p.name v) kw hdisj2 (List.nodup_cons.mp hnd).2 h
      rw [hkw, hset, Dict.keys_append]
      simp [Dict.keys]

/-- C5: for a signature with required parameter `a` and optional parameter `b`
defaulting to 1 and no catch-all, binding the task input with `a = 5` yields
exactly `a = 5, b = 1`; binding the empty task input fails with an error
naming the missing parameter `a` (the KeyError realising the spec error
`MissingRequiredInputError`), and `call_with` on the empty input fails the
same way for every callable, so the error is raised at binding time before
the callable runs. -/
theorem bind_default_and_missing :
    getInputFrom [⟨"a", none, false⟩, ⟨"b", some 1, false⟩] [("a", 5)] =
      .ok [("a", 5), ("b", 1)] ∧
    getInputFrom [⟨"a", none, false⟩, ⟨"b", some 1, false⟩] [] = .error "a" ∧
    ∀ fn : Dict → Int,
      callWith [⟨"a", none, false⟩, ⟨"b", some 1, false⟩] fn [] = .error "a" :=
  ⟨rfl, rfl, fun _ => rfl⟩

/-- C1 (code bug): for the signature of `def f(a, **kwargs)` — parameter `a`
plus a catch-all keyword parameter named `kwargs` — binding the task input
`a = 9, extra = 2` does not succeed: the parameter loop of
`_get_input_from` also iterates the `VAR_KEYWORD` parameter itself, whose
default is the empty sentinel, so it raises `KeyError` for the name
`kwargs` instead of merging the task input into the bound arguments. -/
theorem catchall_param_required_bug :
    getInputFrom [⟨"a", none, false⟩, ⟨"kwargs", none, true⟩]
      [("a", 9), ("extra", 2)] = .error "kwargs" := rfl

/-- C6: `_filter_versions` with `version` omitted returns exactly the items
whose version differs from the registration version; with an explicit
`version` it returns exactly the items matching it; and the omitted-version
mode returns no item of the current registration version. -/
theorem filterVersions_spec (reg : ActivityRegistration) (items : List ActItem)
    (v : String) :
    filterVersions reg items none = items.filter (fun a => a.1 != reg.version) ∧
    filterVersions reg items (some v) = items.filter (fun a => a.1 == v) ∧
    (filterVersions reg items none).all (fun a => a.1 != reg.version) = true := by
  have h1 : filterVersions reg items none =
      items.filter (fun a => a.1 != reg.version) := by
    induction items with
    | nil => rfl
    | cons a rest ih =>
      by_cases h : a.1 = reg.version <;>
        simp [filterVersions, List.filter_cons, h, ih]
  have h2 : filterVersions reg items (some v) =
      items.filter (fun a => a.1 == v) := by
    clear h1
    induction items with
    | nil => rfl
    | cons a rest ih =>
      by_cases h : a.1 = v <;>
        simp [filterVersions, List.filter_cons, h, ih]
  refine ⟨h1, h2, ?_⟩
  rw [h1, List.all_eq_true]
  intro x hx
  exact (List.mem_filter.mp hx).2

/-- C10: for a signature with no catch-all keyword parameter (and, as in any
Python signature, distinct parameter names), a successful binding produces a
mapping whose keys are exactly the declared parameter names in order —
task-input keys that are not declared parameters are dropped without
error. -/
theorem bind_keys_exact (sig : List Param) (ti kw : Dict)
    (hvar : sig.any (fun p => p.isVarKeyword) = false)
    (hnd : (sig.map Param.name).Nodup)
    (h : getInputFrom sig ti = .ok kw) :
    Dict.keys kw = sig.map Param.name := by
  rw [getInputFrom] at h
  cases hb : bindParams ti sig [] with
  | error e => rw [hb] at h; cases h
  | ok kw0 =>
    rw [hb, hvar] at h
    simp at h
    have := bindParams_keys ti sig [] kw0
      (by intro p _; simp [Dict.keys]) hnd hb
    rw [← h, this]
    rfl

/-- Witness for C10: with declared parameters `a` (required) and `b`
(default 1), the task input `a = 5, zzz = 7` binds successfully and the bound
mapping has exactly the keys `a, b`: the undeclared key `zzz` is dropped. -/
theorem bind_keys_exact_witness :
    Dict.keys [("a", 5), ("b", 1)] = ["a", "b"] := by
  have h := bind_keys_exact [⟨"a", none, false⟩, ⟨"b", some 1, false⟩]
    [("a", 5), ("zzz", 7)] [("a", 5), ("b", 1)] rfl (by decide) rfl
  simpa using h

/-- C7: declaring an activity under a short name already present in the group
raises `ValueError` (the `DuplicateActivityError` of the spec) and leaves the
registration state — its activity mapping and hence its count — unchanged;
the declaration path performs no remote call. -/
theorem duplicate_shortname_rejected (reg : ActivityRegistration)
    (suff fnName : String) (hb : Nat)
    (hgrp : '!' ∉ reg.name.data)
    (hdup : suff ∈ reg.activities.map (fun kv => kv.1)) :
    declareActivity reg (some suff) hb fnName =
      (.error ("Activity " ++ suff ++ " already registered"), reg) := by
  simp [declareActivity, hgrp, hdup]

/-- Witness for C7: a group holding one activity under short name `x` rejects
a second declaration of `x` and keeps its single stored activity. -/
theorem duplicate_shortname_rejected_witness :
    declareActivity
      { name := "grp", version := "1.0",
        activities := [("x", { name := "grp!1.0!x", heartbeat := 20 })] }
      (some "x") 20 "x" =
      (.error ("Activity " ++ "x" ++ " already registered"),
       { name := "grp", version := "1.0",
         activities := [("x", { name := "grp!1.0!x", heartbeat := 20 })] }) :=
  duplicate_shortname_rejected
    { name := "grp", version := "1.0",
      activities := [("x", { name := "grp!1.0!x", heartbeat := 20 })] }
    "x" "x" 20 (by decide) (by decide)

/-- C2 (counterexample): on the group `grp` version `1.0` with no stored
activities, `new_external_activity` returns a bare activity with the
composite name `grp!1.0!ext` but the group collection stays empty, so the
subsequent group-level `register()` registers nothing — the external
activity is not added to the collection, contrary to the claim. -/
theorem newExternalActivity_not_added_cex :
    (newExternalActivity { name := "grp", version := "1.0", activities := [] }
      "ext" 20).1 = .ok { name := "grp!1.0!ext", heartbeat := 20 } ∧
    (newExternalActivity { name := "grp", version := "1.0", activities := [] }
      "ext" 20).2.activities = [] ∧
    registerAllNames
      (newExternalActivity { name := "grp", version := "1.0", activities := [] }
        "ext" 20).2 = [] :=
  ⟨rfl, rfl, rfl⟩

/-- C2 (amended): for every group whose name is free of `!`,
`new_external_activity` produces a bare activity carrying the composite name
`group!version!name`, but does not add it to the group collection: the
registration state is unchanged, and a subsequent group-level `register()`
registers exactly the activities that were already stored. -/
theorem newExternalActivity_amended (reg : ActivityRegistration) (name : String)
    (hb : Nat) (hgrp : '!' ∉ reg.name.data) :
    (newExternalActivity reg name hb).1 =
      .ok { name := (reg.name ++ "!" ++ reg.version ++ "!") ++ name,
            heartbeat := hb } ∧
    (newExternalActivity reg name hb).2 = reg ∧
    registerAllNames (newExternalActivity reg name hb).2 =
      registerAllNames reg := by
  simp [newExternalActivity, hgrp]

/-- Witness for the amended C2: concrete group `billing` version `2.1`. -/
theorem newExternalActivity_amended_witness :
    (newExternalActivity { name := "billing", version := "2.1", activities := [] }
      "charge" 20).1 =
      .ok { name := ("billing" ++ "!" ++ "2.1" ++ "!") ++ "charge",
            heartbeat := 20 } ∧
    (newExternalActivity { name := "billing", version := "2.1", activities := [] }
      "charge" 20).2 =
      { name := "billing", version := "2.1", activities := [] } :=
  ⟨(newExternalActivity_amended
      { name := "billing", version := "2.1", activities := [] }
      "charge" 20 (by decide)).1,
   (newExternalActivity_amended
      { name := "billing", version := "2.1", activities := [] }
      "charge" 20 (by decide)).2.1⟩

/-- C9: on an activity whose cache slot is empty, the first access to `arn`
returns exactly `arn:aws:states:<region>:<account>:activity:<name>`, stores
that value in the cache without touching name or heartbeat, and a repeated
access on the resulting object returns the same value with the state
unchanged; the computed value depends only on the session region, the session
account id and the activity name. -/
theorem arn_pure_cached (sess : Session) (act : Activity)
    (h : act.arnCache = none) :
    (getArn sess act).1 =
      "arn:aws:states:" ++ sess.region ++ ":" ++ sess.accountId ++
        ":activity:" ++ act.name ∧
    (getArn sess act).2.arnCache = some (getArn sess act).1 ∧
    getArn sess (getArn sess act).2 = ((getArn sess act).1, (getArn sess act).2) ∧
    (getArn sess act).2.name = act.name ∧
    (getArn sess act).2.heartbeat = act.heartbeat ∧
    ∀ sess2 : Session, sess2.region = sess.region →
      sess2.accountId = sess.accountId →
      computeArn sess2 act.name = computeArn sess act.name := by
  refine ⟨?_, ?_, ?_, ?_, ?_, ?_⟩
  · simp [getArn, h, computeArn]
  · simp [getArn, h]
  · simp [getArn, h]
  · simp [getArn, h]
  · simp [getArn, h]
  · intro sess2 hr ha
    simp [computeArn, hr, ha]

/-- Witness for C9: concrete session and activity. -/
theorem arn_pure_cached_witness :
    (getArn { region := "eu-west-1", accountId := "111122223333" }
      { name := "spam", heartbeat := 20 }).1 =
      "arn:aws:states:" ++ "eu-west-1" ++ ":" ++ "111122223333" ++
        ":activity:" ++ "spam" :=
  (arn_pure_cached { region := "eu-west-1", accountId := "111122223333" }
    { name := "spam", heartbeat := 20 } rfl).1

/-- C8: `register()` validates the name first — on an invalid name it fails
with the invalid-name error and performs no create call; on a valid name it
performs exactly one create call, then fails with the identity-mismatch error
exactly when the remote-returned identifier differs from the locally computed
one, and succeeds otherwise; and in every case the only local-state change is
the cached identifier: the activity state after is the one produced by the
cached `arn` access, with name and heartbeat unchanged. -/
theorem register_sequence_spec (validName : String → Bool)
    (createActivity : String → CreateActivityResp) (sess : Session)
    (act : Activity) :
    (validName act.name = false →
      registerActivity validName createActivity sess act =
        (.error .invalidName, act, [])) ∧
    (validName act.name = true →
      (registerActivity validName createActivity sess act).2.2 = [act.name] ∧
      (registerActivity validName createActivity sess act).2.1 =
        (getArn sess act).2 ∧
      ((createActivity act.name).activityArn ≠ (getArn sess act).1 →
        (registerActivity validName createActivity sess act).1 =
          .error .identityMismatch) ∧
      ((createActivity act.name).activityArn = (getArn sess act).1 →
        (registerActivity validName createActivity sess act).1 = .ok ())) ∧
    (registerActivity validName createActivity sess act).2.1.name = act.name ∧
    (registerActivity validName createActivity sess act).2.1.heartbeat =
      act.heartbeat := by
  have hpres : (getArn sess act).2.name = act.name ∧
      (getArn sess act).2.heartbeat = act.heartbeat := by
    cases hc : act.arnCache <;> simp [getArn, hc]
  by_cases hv : validName act.name = true
  case pos =>
    by_cases hm : (createActivity act.name).activityArn = (getArn sess act).1
    case pos =>
      have hr : registerActivity validName createActivity sess act =
          (.ok (), (getArn sess act).2, [act.name]) := by
        simp [registerActivity, hv, hm]
      refine ⟨fun h => ?_, fun _ => ?_, ?_, ?_⟩
      · rw [h] at hv; cases hv
      · rw [hr]; exact ⟨rfl, rfl, fun hne => absurd hm hne, fun _ => rfl⟩
      · rw [hr]; exact hpres.1
      · rw [hr]; exact hpres.2
    case neg =>
      have hr : registerActivity validName createActivity sess act =
          (.error .identityMismatch, (getArn sess act).2, [act.name]) := by
        simp [registerActivity, hv, hm]
      refine ⟨fun h => ?_, fun _ => ?_, ?_, ?_⟩
      · rw [h] at hv; cases hv
      · rw [hr]; exact ⟨rfl, rfl, fun _ => rfl, fun he => absurd he hm⟩
      · rw [hr]; exact hpres.1
      · rw [hr]; exact hpres.2
  case neg =>
    have hv2 : validName act.name = false := by
      cases h : validName act.name
      · rfl
      · exact absurd h hv
    have hr : registerActivity validName createActivity sess act =
        (.error .invalidName, act, []) := by
      simp [registerActivity, hv2]
    refine ⟨fun _ => hr, fun h => ?_, ?_, ?_⟩
    · rw [h] at hv2; cases hv2
    · rw [hr]
    · rw [hr]

/-- Witness for C8: with an always-valid name predicate and a remote service
returning exactly the locally computed identifier, registering the activity
`spam` succeeds and issues exactly one create call. -/
theorem register_sequence_spec_witness :
    (registerActivity (fun _ => true)
      (fun n => ⟨computeArn ⟨"us-east-1", "123456789012"⟩ n, 0⟩)
      ⟨"us-east-1", "123456789012"⟩ ⟨"spam", 20, none⟩).1 = .ok () ∧
    (registerActivity (fun _ => true)
      (fun n => ⟨computeArn ⟨"us-east-1", "123456789012"⟩ n, 0⟩)
      ⟨"us-east-1", "123456789012"⟩ ⟨"spam", 20, none⟩).2.2 = ["spam"] := by
  have h := register_sequence_spec (fun _ => true)
    (fun n => ⟨computeArn ⟨"us-east-1", "123456789012"⟩ n, 0⟩)
    ⟨"us-east-1", "123456789012"⟩ ⟨"spam", 20, none⟩
  exact ⟨((h.2.1 rfl).2.2.2 rfl), (h.2.1 rfl).1⟩

/-- C3 (code bug): a remote activity name with three delimiters, such as
`g!v!a!b`, splits under `split("!", 3)` into four parts; the guard
`len(name_splits) < 3` does not discard it, so the three-way tuple unpacking
in `_get_name_and_version` raises `ValueError` and the listing operation
propagates it instead of silently discarding the entry. -/
theorem listActivities_raises_on_extra_delims :
    listActivities { name := "g", version := "v", activities := [] }
      [{ name := "g!v!a!b", arn := "arn0", creationDate := 0 }] =
      .error () := rfl

/-- Appending strings concatenates their character lists. -/
lemma string_data_append (a b : String) : (a ++ b).data = a.data ++ b.data := by
  cases a; cases b; rfl

/-- Character list of a composite name. -/
lemma compositeName_data (g v s : String) :
    (compositeName g v s).data =
      g.data ++ ('!' :: (v.data ++ ('!' :: s.data))) := by
  have hbang : "!".data = ['!'] := rfl
  simp [compositeName, string_data_append, hbang, List.append_assoc]

/-- Splitting a separator-free chunk yields a single chunk, whatever the
remaining split budget. -/
lemma pySplitAux_no_sep (sep : Char) (l : List Char) :
    sep ∉ l → ∀ (m : Nat) (acc : List Char),
      pySplitAux sep l m acc = [acc.reverse ++ l] := by
  induction l with
  | nil => intro _ m acc; cases m <;> simp [pySplitAux]
  | cons c l ih =>
    intro h m acc
    simp [List.mem_cons] at h
    have hc : ¬ c = sep := fun e => h.1 e.symm
    cases m with
    | zero => simp [pySplitAux]
    | succ m =>
      simp [pySplitAux, hc]
      rw [ih h.2 (m + 1) (c :: acc)]
      simp

/-- With split budget left, a separator-free chunk followed by a separator is
cut off as one chunk and splitting continues on the remainder. -/
lemma pySplitAux_sep_split (sep : Char) (l : List Char) :
    sep ∉ l → ∀ (rest : List Char) (m : Nat) (acc : List Char),
      pySplitAux sep (l ++ sep :: rest) (m + 1) acc =
        (acc.reverse ++ l) :: pySplitAux sep rest m [] := by
  induction l with
  | nil => intro _ rest m acc; simp [pySplitAux]
  | cons c l ih =>
    intro h rest m acc
    simp [List.mem_cons] at h
    have hc : ¬ c = sep := fun e => h.1 e.symm
    simp only [List.cons_append, pySplitAux, if_neg hc, List.append_eq]
    rw [ih h.2 rest m (c :: acc)]
    simp

/-- A composite of three delimiter-free components splits back into exactly
those components under the 3-split rule. -/
lemma pySplit_compositeName (g v s : String)
    (hg : '!' ∉ g.data) (hv : '!' ∉ v.data) (hs : '!' ∉ s.data) :
    pySplit (compositeName g v s) '!' 3 = [g, v, s] := by
  unfold pySplit
  rw [compositeName_data]
  have e1 : (3 : Nat) = 2 + 1 := rfl
  rw [e1, pySplitAux_sep_split '!' g.data hg _ 2 []]
  have e2 : (2 : Nat) = 1 + 1 := rfl
  rw [e2, pySplitAux_sep_split '!' v.data hv _ 1 []]
  rw [pySplitAux_no_sep '!' s.data hs 1 []]
  rfl

/-- C4 (counterexample): the triple group `g`, version `1.0`, short name
`x!y` has no `!` in the group name, yet parsing its composite name
`g!1.0!x!y` does not recover the components: the 3-split rule yields four
parts and `_get_name_and_version` raises `ValueError` on the unpacking. -/
theorem roundtrip_cex :
    '!' ∉ "g".data ∧
    getNameAndVersion { name := "g", version := "1.0", activities := [] }
      (compositeName "g" "1.0" "x!y") ≠ .ok (some ("1.0", "x!y")) ∧
    getNameAndVersion { name := "g", version := "1.0", activities := [] }
      (compositeName "g" "1.0" "x!y") = .error () := by
  have he : getNameAndVersion { name := "g", version := "1.0", activities := [] }
      (compositeName "g" "1.0" "x!y") = .error () := rfl
  refine ⟨by decide, ?_, he⟩
  rw [he]
  simp

/-- C4 (amended): for every group, version and short name all free of the
delimiter `!`, the composite name `group!version!shortName` round-trips: the
3-split parse of `_get_name_and_version`, on a registration carrying that
group name, recovers exactly the original version and short name. -/
theorem roundtrip_amended (reg : ActivityRegistration) (g v s : String)
    (hreg : reg.name = g)
    (hg : '!' ∉ g.data) (hv : '!' ∉ v.data) (hs : '!' ∉ s.data) :
    getNameAndVersion reg (compositeName g v s) = .ok (some (v, s)) := by
  have hsplit := pySplit_compositeName g v s hg hv hs
  simp [getNameAndVersion, hsplit, hreg]

/-- Witness for the amended C4: the composite name `billing!2.1!charge`
parses back into version `2.1` and short name `charge`. -/
theorem roundtrip_amended_witness :
    getNameAndVersion { name := "billing", version := "2.1", activities := [] }
      (compositeName "billing" "2.1" "charge") = .ok (some ("2.1", "charge")) :=
  roundtrip_amended { name := "billing", version := "2.1", activities := [] }
    "billing" "2.1" "charge" rfl (by decide) (by decide) (by decide)

end Sfini
